import Mathlib

/-!
Verification of the movie-catalog core of the `express-movies` service:
normalization, duplicate detection (single create and bulk import),
transactional bulk creation, locale-aware title sorting, list filtering,
and import-file parsing.

The JavaScript source is embedded shallowly: every database table is a
Lean list, every DAO / ABL operation is a pure Lean function from the
database state (and the operation's input) to the new state and result.
JavaScript strings are modelled by Lean `String`; the string primitives
the code relies on (`trim`, `toLowerCase`, `startsWith`, `slice`,
`split`, substring `LIKE` matching, `parseInt`) are re-implemented below
as structurally recursive functions on `String.data` so that concrete
runs reduce inside the kernel.  `toLowerCase` is modelled on the
alphabets this service actually handles (ASCII and Cyrillic); dates are
fixed at the 2026 evaluation date, so `MAX_YEAR = 2036`.
-/

deriving instance DecidableEq for Except

namespace ExpressMovies

/-! ### JavaScript string primitives -/

/-- Model of JavaScript `String.prototype.toLowerCase` for one character,
covering the ASCII and Cyrillic alphabets used by the service
(`A`-`Z`, `А`-`Я` map by +32, `Ѐ`-`Џ` map by +80; everything else fixed). -/
def jsToLowerChar (c : Char) : Char :=
  if 'A' ≤ c ∧ c ≤ 'Z' then Char.ofNat (c.toNat + 32)
  else if 'А' ≤ c ∧ c ≤ 'Я' then Char.ofNat (c.toNat + 32)
  else if 0x400 ≤ c.toNat ∧ c.toNat ≤ 0x40F then Char.ofNat (c.toNat + 80)
  else c

/-- Model of JavaScript `String.prototype.toLowerCase`. -/
def jsToLower (s : String) : String := ⟨s.data.map jsToLowerChar⟩

/-- Model of JavaScript `String.prototype.trim`: drop whitespace from
both ends. -/
def jsTrim (s : String) : String :=
  ⟨((s.data.dropWhile Char.isWhitespace).reverse.dropWhile Char.isWhitespace).reverse⟩

/-- Model of `String.prototype.startsWith`. -/
def jsStartsWith (s pre : String) : Bool := pre.data.isPrefixOf s.data

/-- Model of `String.prototype.slice(n)` (the prefixes sliced off in this
code are ASCII, so code units coincide with characters). -/
def jsDrop (s : String) (n : Nat) : String := ⟨s.data.drop n⟩

/-- `true` when `pat` occurs as a contiguous substring of `hay`: the
semantics of a SQL `LIKE '%pat%'` filter. -/
def listContainsSub (pat : List Char) : List Char → Bool
  | [] => pat.isEmpty
  | c :: cs => pat.isPrefixOf (c :: cs) || listContainsSub pat cs

/-- `LIKE '%pat%'` on strings. -/
def strContains (s pat : String) : Bool := listContainsSub pat.data s.data

/-- Split a character list at every occurrence of `sep`
(JavaScript `String.prototype.split`). -/
def splitOnCharAux (sep : Char) : List Char → List Char → List (List Char)
  | [], acc => [acc.reverse]
  | c :: cs, acc =>
    if c = sep then acc.reverse :: splitOnCharAux sep cs []
    else splitOnCharAux sep cs (c :: acc)

/-- `String.prototype.split(sep)` for a one-character separator. -/
def jsSplitOn (s : String) (sep : Char) : List String :=
  (splitOnCharAux sep s.data []).map (fun cs => ⟨cs⟩)

/-- Leading decimal digits of a character list, `none` when there are none. -/
def digitsPrefix (cs : List Char) : Option Nat :=
  let ds := cs.takeWhile Char.isDigit
  if ds.isEmpty then none
  else some (ds.foldl (fun n c => n * 10 + (c.toNat - 48)) 0)

/-- Model of JavaScript `parseInt(s, 10)`: skip leading whitespace, an
optional sign, then read the longest digit prefix; `none` models `NaN`. -/
def jsParseInt (s : String) : Option Int :=
  match s.data.dropWhile Char.isWhitespace with
  | '-' :: rest => (digitsPrefix rest).map (fun n => -(n : Int))
  | '+' :: rest => (digitsPrefix rest).map (fun n => (n : Int))
  | cs => (digitsPrefix cs).map (fun n => (n : Int))

/-- Model of JavaScript `Number(s)` restricted to the decimal strings
this code produces: the empty string is `0`, otherwise the string must
be all digits (`none` models `NaN`). -/
def jsNumber (s : String) : Option Nat :=
  if s.data.isEmpty then some 0
  else if s.data.all Char.isDigit then digitsPrefix s.data
  else none

/-- Scan of `jsDedup`, carrying the elements already seen. -/
def jsDedupAux : List String → List String → List String
  | [], _ => []
  | x :: xs, seen =>
    if seen.contains x then jsDedupAux xs seen
    else x :: jsDedupAux xs (x :: seen)

/-- JavaScript `new Set(l)` as a list: first occurrences, in order. -/
def jsDedup (l : List String) : List String := jsDedupAux l []

/-- Truthiness of an optional string parameter (absent or `""` is falsy). -/
def optTruthy : Option String → Bool
  | none => false
  | some s => !(s == "")

/-! ### Data model

`Movie` and `Actor` rows carry the derived `searchTitle` / `searchName`
columns; the many-to-many join table is the list of
`(movieId, actorId)` pairs. -/

structure Movie where
  id : Nat
  title : String
  searchTitle : String
  year : Nat
  format : String
deriving DecidableEq, Repr

structure Actor where
  id : Nat
  name : String
  searchName : String
deriving DecidableEq, Repr

structure DB where
  movies : List Movie
  actors : List Actor
  links : List (Nat × Nat)
  nextMovieId : Nat
  nextActorId : Nat
deriving DecidableEq, Repr

def emptyDB : DB := ⟨[], [], [], 1, 1⟩

/-- Input record for `create` / `createMany` (title, year, format and
the list of actor names). -/
structure MovieInput where
  title : String
  year : Nat
  format : String
  actors : List String
deriving DecidableEq, Repr

/-- The actor rows joined to a movie id (the eager `include` of the DAO). -/
def actorsOf (db : DB) (mid : Nat) : List Actor :=
  db.actors.filter (fun a => db.links.contains (mid, a.id))

/-- The actor names attached to a movie row. -/
def movieActorNames (db : DB) (m : Movie) : List String :=
  (actorsOf db m.id).map (fun a => a.name)

/-! ### Normalization (`MovieSequelizeDao.#normalizeField` and the
actor-name normalizer used by duplicate detection) -/

/-- `#normalizeField`: lowercase, used to derive `searchTitle`/`searchName`. -/
def normalizeField (s : String) : String := jsToLower s

/-- `name.trim().toLowerCase()`: actor-name normalization for duplicate
comparison. -/
def normName (s : String) : String := jsToLower (jsTrim s)

/-! ### Actor resolution (`MovieSequelizeDao.#resolveActorsByNames`)

Trim the names, de-duplicate, look up the actors whose stored `name`
equals a member exactly, and bulk-create rows (with derived
`searchName`) for the rest.  The returned association list maps each
trimmed name to the id of its actor row. -/

def resolveActorsByNames (db : DB) (actorNames : List String) :
    DB × List (String × Nat) :=
  let uniqueNames := jsDedup (actorNames.map jsTrim)
  let existing := db.actors.filter (fun a => uniqueNames.contains a.name)
  let actorMap := existing.map (fun a => (a.name, a.id))
  let newNames := uniqueNames.filter (fun n => !(actorMap.any (fun p => p.1 == n)))
  let newActors := newNames.enum.map
    (fun p => Actor.mk (db.nextActorId + p.1) p.2 (normalizeField p.2))
  ({ db with
      actors := db.actors ++ newActors
      nextActorId := db.nextActorId + newActors.length },
    actorMap ++ newActors.map (fun a => (a.name, a.id)))

/-- `#updateActorList`: skip when no actor list is supplied; otherwise
resolve the names and replace the movie's associations wholesale. -/
def updateActorList (db : DB) (mid : Nat) (actors : List String) : DB :=
  if actors.isEmpty then db
  else
    let r := resolveActorsByNames db actors
    { r.1 with
        links := r.1.links.filter (fun l => !(l.1 == mid))
          ++ r.2.map (fun p => (mid, p.2)) }

/-! ### Movie repository writes (`create`, `update`, `delete`) -/

/-- `MovieSequelizeDao.create`: insert the movie row with derived
`searchTitle`, then resolve and associate the actors.  Returns the new
state and the created movie's id. -/
def daoCreate (db : DB) (input : MovieInput) : DB × Nat :=
  let movie : Movie :=
    ⟨db.nextMovieId, input.title, normalizeField input.title, input.year, input.format⟩
  let db1 : DB :=
    { db with movies := db.movies ++ [movie], nextMovieId := db.nextMovieId + 1 }
  (updateActorList db1 movie.id input.actors, movie.id)

/-- Partial update input: absent fields are left untouched. -/
structure UpdateDto where
  id : Nat
  title : Option String
  year : Option Nat
  format : Option String
  actors : Option (List String)
deriving DecidableEq, Repr

/-- Field application of `movie.update(movieFields)`: `searchTitle` is
re-derived exactly when a truthy `title` is present (the JavaScript
guard `if (movieFields.title)`). -/
def applyUpdateFields (m : Movie) (dto : UpdateDto) : Movie :=
  let tpair : String × String :=
    match dto.title with
    | some t => if t ≠ "" then (t, normalizeField t) else (t, m.searchTitle)
    | none => (m.title, m.searchTitle)
  { id := m.id
    title := tpair.1
    searchTitle := tpair.2
    year := dto.year.getD m.year
    format := dto.format.getD m.format }

/-- `MovieSequelizeDao.update`: `none` result when the id is unknown
(no write); otherwise replace the actor associations when a list is
supplied, then apply the field updates. -/
def daoUpdate (db : DB) (dto : UpdateDto) : DB × Option Nat :=
  match db.movies.find? (fun m => m.id == dto.id) with
  | none => (db, none)
  | some _ =>
    let db1 :=
      match dto.actors with
      | some acts => updateActorList db dto.id acts
      | none => db
    ({ db1 with
        movies := db1.movies.map
          (fun m => if m.id == dto.id then applyUpdateFields m dto else m) },
      some dto.id)

/-- `MovieSequelizeDao.delete`: remove the movie row; association rows
cascade; actors survive. -/
def daoDelete (db : DB) (id : Nat) : DB × Bool :=
  let existed := db.movies.any (fun m => m.id == id)
  ({ db with
      movies := db.movies.filter (fun m => !(m.id == id))
      links := db.links.filter (fun l => !(l.1 == id)) },
    existed)

/-! ### Duplicate detection -/

/-- `MovieSequelizeDao.listByTitleYearAndFormat`: all movies equal to
the trimmed title, the year and the trimmed format, each with its
joined actor rows. -/
def listByTitleYearAndFormat (db : DB) (title : String) (year : Nat)
    (format : String) : List (Movie × List Actor) :=
  (db.movies.filter (fun m =>
      m.title == jsTrim title && m.year == year && m.format == jsTrim format)).map
    (fun m => (m, actorsOf db m.id))

/-- The set-equality check of `CreateAbl.#ensureNoDuplicate` /
`MovieSequelizeDao.#actorsEqual`: same size, and every member of the
first set is in the second. -/
def actorsEqualSets (firstSet secondSet : List String) : Bool :=
  secondSet.length == firstSet.length && firstSet.all (fun a => secondSet.contains a)

/-- `CreateAbl.#ensureNoDuplicate` as a predicate: some already-persisted
movie matches on trimmed title, year and trimmed format and has the
same normalized actor-name set. -/
def isDuplicate (db : DB) (input : MovieInput) : Bool :=
  let movieList := listByTitleYearAndFormat db input.title input.year input.format
  let inputActorSet := jsDedup (input.actors.map normName)
  movieList.any (fun p =>
    let movieActorSet := jsDedup (p.2.map (fun a => normName a.name))
    actorsEqualSets inputActorSet movieActorSet)

/-- Outcome of the single-create use case. -/
inductive CreateOutcome where
  | alreadyExists : CreateOutcome
  | created (id : Nat) : CreateOutcome
deriving DecidableEq, Repr

/-- `CreateAbl.create`: raise `MovieAlreadyExists` (leaving the state
untouched) on a duplicate, otherwise run the repository create. -/
def createAblRun (db : DB) (input : MovieInput) : DB × CreateOutcome :=
  if isDuplicate db input then (db, .alreadyExists)
  else
    let r := daoCreate db input
    (r.1, .created r.2)

/-! ### Bulk duplicate filtering (`MovieSequelizeDao.#filterDuplicates`) -/

/-- `buildKey`: the `title|year|format` grouping key. -/
def buildKey (m : MovieInput) : String :=
  m.title ++ "|" ++ toString m.year ++ "|" ++ m.format

/-- One existence lookup of `#loadExistingByKey`: split the key back on
`|`, convert the year with `Number`, and query storage. -/
def loadExistingForKey (db : DB) (key : String) : List (Movie × List Actor) :=
  let parts := jsSplitOn key '|'
  let title := parts.getD 0 ""
  let yearStr := parts.getD 1 ""
  let format := parts.getD 2 ""
  match jsNumber yearStr with
  | some y => listByTitleYearAndFormat db title y format
  | none => []

/-- `#toActorSetFromMovie` then `#actorsEqual` over the existing rows:
`#hasDuplicateActors`. -/
def hasDuplicateActors (existingMovies : List (Movie × List Actor))
    (inputActorSet : List String) : Bool :=
  existingMovies.any (fun p =>
    actorsEqualSets inputActorSet (jsDedup (p.2.map (fun a => normName a.name))))

/-- `#groupMoviesByKey` keeps one bucket per distinct key, in first-seen
order; only the keys are consumed, so the model records the key list. -/
def inputKeys (movieList : List MovieInput) : List String :=
  jsDedup (movieList.map buildKey)

/-- `#loadExistingByKey`: one storage lookup per distinct key; keys whose
lookup is empty get no entry. -/
def loadExistingByKey (db : DB) (keys : List String) :
    List (String × List (Movie × List Actor)) :=
  keys.filterMap (fun k =>
    let existing := loadExistingForKey db k
    if existing.isEmpty then none else some (k, existing))

/-- `#filterDuplicates`: group the candidates by key, load the existing
rows once per distinct key, then keep (in order) every candidate whose
key has no existing rows or whose normalized actor set matches none of
them. -/
def filterDuplicates (db : DB) (movieList : List MovieInput) : List MovieInput :=
  let existingByKey := loadExistingByKey db (inputKeys movieList)
  movieList.filter (fun movie =>
    match existingByKey.find? (fun p => p.1 == buildKey movie) with
    | none => true
    | some entry =>
      !(hasDuplicateActors entry.2 (jsDedup (movie.actors.map normName))))

/-- The per-candidate duplicate test the bulk filter implements: look up
the candidate's own key directly and compare normalized actor sets.
`filterDuplicates_eq_filter` below shows the filter is exactly the
per-candidate test, independent of the rest of the batch. -/
def bulkIsDuplicate (db : DB) (m : MovieInput) : Bool :=
  hasDuplicateActors (loadExistingForKey db (buildKey m))
    (jsDedup (m.actors.map normName))

/-! ### Bulk creation (`MovieSequelizeDao.createMany`) -/

/-- A movie row as returned by `#buildResult` (the derived `searchTitle`
is stripped from the response). -/
structure MovieOut where
  id : Nat
  title : String
  year : Nat
  format : String
deriving DecidableEq, Repr

def Movie.strip (m : Movie) : MovieOut := ⟨m.id, m.title, m.year, m.format⟩

structure CreateManyResult where
  itemList : List MovieOut
  total : Nat
  skipped : Nat
deriving DecidableEq, Repr

/-- `createMany`: filter duplicates, then (inside one transaction)
resolve the union of actor names, bulk-insert the movie rows with
derived `searchTitle`, and bulk-insert the association rows.
`skipped` is the number of filtered-out records and `total` the movie
count after the inserts. -/
def createManyOp (db : DB) (movieList : List MovieInput) : DB × CreateManyResult :=
  let uniqueMovies := filterDuplicates db movieList
  if uniqueMovies.isEmpty then
    (db, ⟨[], db.movies.length, movieList.length⟩)
  else
    let r1 := resolveActorsByNames db (uniqueMovies.flatMap (fun m => m.actors))
    let db1 := r1.1
    let actorMap := r1.2
    let newMovies := uniqueMovies.enum.map (fun p =>
      Movie.mk (db1.nextMovieId + p.1) p.2.title (normalizeField p.2.title)
        p.2.year p.2.format)
    let db2 : DB :=
      { db1 with
          movies := db1.movies ++ newMovies
          nextMovieId := db1.nextMovieId + newMovies.length }
    let rows := (newMovies.zip uniqueMovies).flatMap (fun q =>
      (jsDedup (q.2.actors.map jsTrim)).filterMap (fun n =>
        (actorMap.find? (fun p => p.1 == n)).map (fun p => (q.1.id, p.2))))
    let db3 : DB := { db2 with links := db2.links ++ rows }
    (db3,
      ⟨newMovies.map Movie.strip, db3.movies.length,
        movieList.length - uniqueMovies.length⟩)

/-! ### Query engine (`list` and its private builders) -/

/-- The atomic conditions `#buildMovieWhere` pushes into its OR group:
a `LIKE` on `searchTitle`, or an id-in-set condition. -/
inductive SimpleCond where
  | searchTitleLike (pat : String) : SimpleCond
  | idIn (ids : List Nat) : SimpleCond
deriving DecidableEq, Repr

/-- A Sequelize where-clause as `#buildMovieWhere` shapes it: the empty
clause `{}`, or a single `Op.or` group of atomic conditions. -/
inductive MovieCond where
  | all : MovieCond
  | orGroup (conds : List SimpleCond) : MovieCond
deriving DecidableEq, Repr

/-- Evaluation of an atomic condition on one movie row. -/
def evalSimple (m : Movie) : SimpleCond → Bool
  | .searchTitleLike pat => strContains m.searchTitle pat
  | .idIn ids => ids.contains m.id

/-- Evaluation of a where-clause on one movie row. -/
def evalCond (m : Movie) : MovieCond → Bool
  | .all => true
  | .orGroup conds => conds.any (fun c => evalSimple m c)

/-- `#findMovieIdsByActor`: the distinct ids of movies joined to at
least one actor whose `searchName` contains the trimmed, lowercased
search term. -/
def findMovieIdsByActor (db : DB) (search : String) : List Nat :=
  let searchPattern := jsToLower (jsTrim search)
  ((db.movies.filter (fun m =>
      (actorsOf db m.id).any (fun a => strContains a.searchName searchPattern))).map
    (fun m => m.id)).dedup

/-- `#buildMovieWhere`: empty clause without filters; otherwise one OR
group holding the `searchTitle` substring condition (built from `title`
when present, else from `search`) and, when `search` found any actor
match, the id-in condition. -/
def buildMovieWhere (db : DB) (title search : Option String) : MovieCond :=
  if !optTruthy title && !optTruthy search then .all
  else
    let value := (if optTruthy title then title else search).getD ""
    let conds := [SimpleCond.searchTitleLike (jsToLower (jsTrim value))]
    let conds :=
      if optTruthy search then
        let ids := findMovieIdsByActor db ((search).getD "")
        if ids.isEmpty then conds else conds ++ [SimpleCond.idIn ids]
      else conds
    .orGroup conds

/-- `#buildActorInclude`: a required join on `searchName` containing the
trimmed, lowercased actor filter, or an optional join without a where. -/
structure ActorInclude where
  required : Bool
  searchNameLike : Option String
deriving DecidableEq, Repr

def buildActorInclude (actor : Option String) : ActorInclude :=
  if optTruthy actor then
    ⟨true, some (jsToLower (jsTrim (actor.getD "")))⟩
  else ⟨false, none⟩

/-- Evaluation of the include on one movie: a required include keeps
only movies with a joined actor matching its where. -/
def evalInclude (db : DB) (incl : ActorInclude) (m : Movie) : Bool :=
  if incl.required then
    (actorsOf db m.id).any (fun a =>
      match incl.searchNameLike with
      | some pat => strContains a.searchName pat
      | none => true)
  else true

/-! ### Locale-aware title sort (`#sortByTitle`)

The source sorts with
`new Intl.Collator("und", { sensitivity: 'variant', caseFirst: 'upper', numeric: true })`.
The collator is modelled by a three-level comparison key: a primary
level of lowercased characters in which runs of digits collapse to
their numeric value and numbers order before letters, a case level
placing uppercase before lowercase, and the raw code points as a final
tie-break.  Comparison is the lexicographic linear order on the keys. -/

structure CollatorConfig where
  locale : String
  sensitivity : String
  caseFirst : String
  numeric : Bool
deriving DecidableEq, Repr

/-- The options the source passes to `Intl.Collator`. -/
def sortByTitleCollator : CollatorConfig := ⟨"und", "variant", "upper", true⟩

/-- Primary collation elements: a digit run as its value, or a
case-folded character. -/
abbrev PrimElem := Lex (Nat ⊕ Nat)

def primOfNum (n : Nat) : PrimElem := toLex (Sum.inl n)

def primOfChar (c : Char) : PrimElem := toLex (Sum.inr (jsToLowerChar c).toNat)

/-- Primary key of a string: fold case, collapse digit runs. -/
def primAux : List Char → Option Nat → List PrimElem
  | [], none => []
  | [], some n => [primOfNum n]
  | c :: cs, acc =>
    if c.isDigit then primAux cs (some ((acc.getD 0) * 10 + (c.toNat - 48)))
    else
      match acc with
      | some n => primOfNum n :: primOfChar c :: primAux cs none
      | none => primOfChar c :: primAux cs none

def primKey (s : String) : List PrimElem := primAux s.data none

/-- Case level: uppercase (a character changed by lowering) before
lowercase, per `caseFirst: 'upper'`. -/
def caseKey (s : String) : List Nat :=
  s.data.map (fun c => if jsToLowerChar c ≠ c then 0 else 1)

/-- Full collation key; the collator compares keys lexicographically. -/
def collatorKey (s : String) :
    Lex (List PrimElem × Lex (List Nat × List Nat)) :=
  toLex (primKey s, toLex (caseKey s, s.data.map Char.toNat))

/-- The boolean `a` before-or-equal `b` comparison the in-memory sort
uses for ascending order (`collator.compare(a, b) <= 0`). -/
def collatorLe (a b : String) : Bool := decide (collatorKey a ≤ collatorKey b)

/-- The row comparison of `#sortByTitle`: titles trimmed, then compared
by the collator; `DESC` negates the comparator. -/
def titleLe (order : String) (a b : Movie) : Bool :=
  if order = "DESC" then collatorLe (jsTrim b.title) (jsTrim a.title)
  else collatorLe (jsTrim a.title) (jsTrim b.title)

/-- `#sortByTitle`: stable sort of the loaded rows by the collator on
trimmed titles. -/
def sortByTitle (movies : List Movie) (order : String) : List Movie :=
  movies.mergeSort (titleLe order)

/-- `#applyPagination`: `items.slice(offset, offset + limit)`. -/
def applyPagination (items : List Movie) (limit offset : Nat) : List Movie :=
  (items.drop offset).take limit

/-! ### `MovieSequelizeDao.list` -/

structure ListOptions where
  limit : Nat
  offset : Nat
  sort : String
  order : String
  title : Option String
  actor : Option String
  search : Option String
deriving Repr

/-- The rows passing the combined where-clause and required include. -/
def matchingMovies (db : DB) (title actor search : Option String) : List Movie :=
  let wh := buildMovieWhere db title search
  let incl := buildActorInclude actor
  db.movies.filter (fun m => evalCond m wh && evalInclude db incl m)

/-- Non-`title` sorts are pushed to storage: order by the column, then
paginate with `LIMIT`/`OFFSET`. -/
def storageOrder (movies : List Movie) (sort order : String) : List Movie :=
  let key : Movie → Nat := if sort = "year" then Movie.year else Movie.id
  if order = "DESC" then movies.mergeSort (fun a b => key b ≤ key a)
  else movies.mergeSort (fun a b => key a ≤ key b)

/-- `list`: count the full filtered set, then either the in-memory
title-sort path (load all, sort, slice) or storage pagination. -/
def daoList (db : DB) (o : ListOptions) : List Movie × Nat :=
  let matching := matchingMovies db o.title o.actor o.search
  let total := matching.length
  let items :=
    if o.sort = "title" then
      applyPagination (sortByTitle matching o.order) o.limit o.offset
    else
      (storageOrder matching o.sort o.order |>.drop o.offset).take o.limit
  (items, total)

/-! ### Import parsing (`ImportAbl`) -/

def MIN_YEAR : Nat := 1895

/-- `new Date().getFullYear() + 10`, fixed at the 2026 evaluation date. -/
def MAX_YEAR : Nat := 2036

def VALID_FORMATS : List String := ["VHS", "DVD", "Blu-Ray", "Digital"]

def MOVIE_FILE_TEXT_FIELDS : List String := ["Title", "Release Year", "Format", "Stars"]

/-- `ACTOR_NAME_REGEX = /^[a-zA-ZÀ-ž.'\- ]+$/` on one character. -/
def actorNameCharOk (c : Char) : Bool :=
  ('a' ≤ c && c ≤ 'z') || ('A' ≤ c && c ≤ 'Z') || ('À' ≤ c && c ≤ 'ž') ||
    c = '.' || c = '\'' || c = '-' || c = ' '

/-- `ACTOR_NAME_REGEX.test(name)`. -/
def actorNameOk (s : String) : Bool :=
  !s.data.isEmpty && s.data.all actorNameCharOk

inductive ImportError where
  | invalidFileContent (errorDetail : String) : ImportError
  | moviesMissingRequiredFields (missingFields : List String) : ImportError
  | invalidInputData (errorDetail : String) : ImportError
deriving DecidableEq, Repr

/-- The four field values of one parsed movie block (camel-cased keys). -/
structure ParsedBlock where
  title : String
  releaseYear : String
  format : String
  stars : String
deriving DecidableEq, Repr

/-- The first line of the block starting (case-insensitively) with
`field.toLowerCase() + ":"`. -/
def findFieldLine (block : List String) (field : String) : Option String :=
  block.find? (fun line => jsStartsWith (jsToLower line) (jsToLower field ++ ":"))

/-- `line.slice(prefix.length).trim()` for `prefix = field + ":"`. -/
def fieldValue (field line : String) : String :=
  jsTrim (jsDrop line (field.length + 1))

/-- `ImportAbl.#parseMovieBlock`: a block whose line count is not
exactly four is `InvalidFileContent`; a four-line block lacking one of
the case-insensitive field prefixes is `MoviesMissingRequiredFields`
(carrying every missing field, in field order). -/
def parseMovieBlock (block : List String) : Except ImportError ParsedBlock :=
  if block.length ≠ MOVIE_FILE_TEXT_FIELDS.length then
    .error (.invalidFileContent
      "Movie block must contain exactly [Title, Release Year, Format, Stars] fields")
  else
    let missingFields := MOVIE_FILE_TEXT_FIELDS.filter
      (fun f => (findFieldLine block f).isNone)
    if missingFields ≠ [] then
      .error (.moviesMissingRequiredFields missingFields)
    else
      .ok
        { title := fieldValue "Title" ((findFieldLine block "Title").getD "")
          releaseYear :=
            fieldValue "Release Year" ((findFieldLine block "Release Year").getD "")
          format := fieldValue "Format" ((findFieldLine block "Format").getD "")
          stars := fieldValue "Stars" ((findFieldLine block "Stars").getD "") }

/-- The comma-split, trimmed, empties-dropped Stars list
(`MovieDto.prepareImportDtoIn` and `#actorsValidation` both compute it). -/
def splitStars (stars : String) : List String :=
  ((jsSplitOn stars ',').map jsTrim).filter (fun a => !(a == ""))

/-- `ImportAbl.#validateMovieBlock` (year, format, actors, title, in the
source's order) followed by `MovieDto.prepareImportDtoIn`.  The record's
year is the validated numeric value. -/
def validateMovieBlock (pb : ParsedBlock) : Except ImportError MovieInput :=
  match jsParseInt pb.releaseYear with
  | none => .error (.invalidInputData "Release year must be a number in range")
  | some y =>
    if y < (MIN_YEAR : Int) ∨ y > (MAX_YEAR : Int) then
      .error (.invalidInputData "Release year must be a number in range")
    else if !VALID_FORMATS.contains pb.format then
      .error (.invalidFileContent "Invalid format")
    else
      let actors := splitStars pb.stars
      if actors.isEmpty then
        .error (.invalidFileContent "Stars field cannot be empty")
      else
        match actors.find? (fun a => a.length > 255 || !actorNameOk a) with
        | some a =>
          if a.length > 255 then
            .error (.invalidFileContent "Actor name is too long")
          else .error (.invalidFileContent "Actor name contains invalid characters")
        | none =>
          if pb.title.length = 0 then
            .error (.invalidFileContent "Title cannot be empty")
          else if pb.title.length > 255 then
            .error (.invalidFileContent "Title exceeds maximum length of 255 characters")
          else .ok ⟨pb.title, y.toNat, pb.format, actors⟩

/-- `flushBlock`: nothing for an empty accumulator, otherwise parse,
validate and convert the block. -/
def flushBlock (block : List String) : Except ImportError (Option MovieInput) :=
  if block.isEmpty then .ok none
  else ((parseMovieBlock block).bind validateMovieBlock).map some

/-- The line scan of `#parseMoviesFile`: trimmed lines accumulate into
the current block; a blank line flushes it (the final block flushes at
end of file). -/
def parseLines : List String → List String → List MovieInput →
    Except ImportError (List MovieInput)
  | [], block, acc =>
    (flushBlock block).map (fun r => acc ++ r.toList)
  | line :: rest, block, acc =>
    if line = "" then
      match flushBlock block with
      | .error e => .error e
      | .ok none => parseLines rest [] acc
      | .ok (some r) => parseLines rest [] (acc ++ [r])
    else parseLines rest (block ++ [line]) acc

/-- `ImportAbl.#parseMoviesFile`: split the file on newlines (the trim
of each line also absorbs the `\r` of CRLF endings) and scan. -/
def parseMoviesFile (content : String) : Except ImportError (List MovieInput) :=
  parseLines ((jsSplitOn content '\n').map jsTrim) [] []

structure ImportResult where
  data : List MovieOut
  imported : Nat
  duplicates : Nat
  total : Nat
deriving DecidableEq, Repr

/-- `ImportAbl.import`: parse and validate the whole file, then bulk
create; `imported` is the number of created rows and `duplicates` the
skipped count.  A parse error leaves the state untouched: no storage
write happens before parsing completes. -/
def importRun (db : DB) (content : String) : DB × Except ImportError ImportResult :=
  match parseMoviesFile content with
  | .error e => (db, .error e)
  | .ok records =>
    let r := createManyOp db records
    (r.1, .ok ⟨r.2.itemList, r.2.itemList.length, r.2.skipped, r.2.total⟩)

/-! ### Storage-event traces of `createMany`

`createMany` opens a Sequelize transaction and runs its body inside the
callback; the duplicate-filter queries (`#loadExistingByKey` via
`listByTitleYearAndFormat`) do not receive the `transaction` option, so
they execute outside the transaction, while every statement of the
insert phase carries it.  The trace records each storage event with the
flag saying whether it ran inside the transaction. -/

inductive DbEvent where
  | txBegin : DbEvent
  | filterQuery (key : String) (inTx : Bool) : DbEvent
  | actorSelect (inTx : Bool) : DbEvent
  | actorInsert (inTx : Bool) : DbEvent
  | movieInsert (titles : List String) (inTx : Bool) : DbEvent
  | linkInsert (inTx : Bool) : DbEvent
  | countQuery (inTx : Bool) : DbEvent
  | txCommit : DbEvent
deriving DecidableEq, Repr

/-- Whether an event is one of the insert statements of the bulk-create
phase. -/
def DbEvent.isInsert : DbEvent → Bool
  | .actorInsert _ => true
  | .movieInsert _ _ => true
  | .linkInsert _ => true
  | _ => false

/-- The storage events `createMany` issues, in program order. -/
def createManyTrace (db : DB) (movieList : List MovieInput) : List DbEvent :=
  let filterPhase := (inputKeys movieList).map (fun k => DbEvent.filterQuery k false)
  let uniqueMovies := filterDuplicates db movieList
  let insertPhase :=
    if uniqueMovies.isEmpty then
      [DbEvent.countQuery true]
    else
      let r1 := resolveActorsByNames db (uniqueMovies.flatMap (fun m => m.actors))
      [DbEvent.actorSelect true]
        ++ (if r1.1.actors.length = db.actors.length then []
            else [DbEvent.actorInsert true])
        ++ [DbEvent.movieInsert (uniqueMovies.map (fun m => m.title)) true]
        ++ (let r := createManyOp db movieList
            if r.1.links.length = db.links.length then [] else [DbEvent.linkInsert true])
        ++ [DbEvent.countQuery true]
  DbEvent.txBegin :: filterPhase ++ insertPhase ++ [DbEvent.txCommit]

/-! ### Basic lemmas about the string-set model -/

theorem mem_jsDedupAux (l seen : List String) (x : String) :
    x ∈ jsDedupAux l seen ↔ x ∈ l ∧ x ∉ seen := by
  induction l generalizing seen with
  | nil => simp [jsDedupAux]
  | cons y ys ih =>
    by_cases hy : seen.contains y
    · rw [jsDedupAux, if_pos hy, ih seen]
      have hy' : y ∈ seen := List.elem_iff.mp hy
      constructor
      · rintro ⟨h1, h2⟩; exact ⟨List.mem_cons_of_mem _ h1, h2⟩
      · rintro ⟨h1, h2⟩
        rcases List.mem_cons.mp h1 with rfl | h1
        · exact absurd hy' h2
        · exact ⟨h1, h2⟩
    · rw [jsDedupAux, if_neg hy]
      have hy' : y ∉ seen := fun h => hy (List.elem_iff.mpr h)
      constructor
      · intro h
        rcases List.mem_cons.mp h with rfl | h
        · exact ⟨List.mem_cons_self _ _, hy'⟩
        · rw [ih (y :: seen)] at h
          refine ⟨List.mem_cons_of_mem _ h.1, fun hx => h.2 (List.mem_cons_of_mem _ hx)⟩
      · rintro ⟨h1, h2⟩
        by_cases hxy : x = y
        · subst hxy; exact List.mem_cons_self _ _
        · rcases List.mem_cons.mp h1 with rfl | h1
          · exact absurd rfl hxy
          · refine List.mem_cons_of_mem _ ((ih (y :: seen)).mpr ⟨h1, fun hx => ?_⟩)
            rcases List.mem_cons.mp hx with rfl | hx
            · exact hxy rfl
            · exact h2 hx

theorem mem_jsDedup (l : List String) (x : String) : x ∈ jsDedup l ↔ x ∈ l := by
  rw [jsDedup, mem_jsDedupAux]; simp

theorem nodup_jsDedupAux (l seen : List String) : (jsDedupAux l seen).Nodup := by
  induction l generalizing seen with
  | nil => simp [jsDedupAux]
  | cons y ys ih =>
    by_cases hy : seen.contains y
    · rw [jsDedupAux, if_pos hy]; exact ih seen
    · rw [jsDedupAux, if_neg hy]
      refine List.Nodup.cons (fun h => ?_) (ih (y :: seen))
      exact ((mem_jsDedupAux _ _ _).mp h).2 (List.mem_cons_self _ _)

theorem nodup_jsDedup (l : List String) : (jsDedup l).Nodup := nodup_jsDedupAux l []

/-- The size-plus-containment test on duplicate-free lists is exactly
set equality. -/
theorem actorsEqualSets_iff_of_nodup (a b : List String)
    (ha : a.Nodup) (hb : b.Nodup) :
    actorsEqualSets a b = true ↔ (∀ x, x ∈ a ↔ x ∈ b) := by
  rw [actorsEqualSets, Bool.and_eq_true, beq_iff_eq, List.all_eq_true]
  constructor
  · rintro ⟨hlen, hsub⟩
    have hsub' : ∀ x ∈ a, x ∈ b := fun x hx => List.elem_iff.mp (hsub x hx)
    have hfin : a.toFinset ⊆ b.toFinset := by
      intro x hx
      exact List.mem_toFinset.mpr (hsub' x (List.mem_toFinset.mp hx))
    have hcard : b.toFinset.card ≤ a.toFinset.card := by
      rw [List.toFinset_card_of_nodup ha, List.toFinset_card_of_nodup hb]
      omega
    have := Finset.eq_of_subset_of_card_le hfin hcard
    intro x
    constructor
    · exact hsub' x
    · intro hx
      have : x ∈ a.toFinset := this ▸ List.mem_toFinset.mpr hx
      exact List.mem_toFinset.mp this
  · intro h
    have hfin : a.toFinset = b.toFinset := by
      ext x; simp only [List.mem_toFinset]; exact h x
    constructor
    · have := congrArg Finset.card hfin
      rw [List.toFinset_card_of_nodup ha, List.toFinset_card_of_nodup hb] at this
      omega
    · intro x hx
      exact List.elem_iff.mpr ((h x).mp hx)

/-- Set equality of two normalized actor-name lists: same members after
trim + lowercase, duplicates collapsed, order irrelevant. -/
def NormNameSetEq (ns₁ ns₂ : List String) : Prop :=
  ∀ x, x ∈ ns₁.map normName ↔ x ∈ ns₂.map normName

instance (ns₁ ns₂ : List String) : Decidable (NormNameSetEq ns₁ ns₂) := by
  unfold NormNameSetEq
  exact decidable_of_iff
    ((∀ x ∈ ns₁.map normName, x ∈ ns₂.map normName) ∧
      (∀ x ∈ ns₂.map normName, x ∈ ns₁.map normName))
    (by
      constructor
      · rintro ⟨h1, h2⟩ x; exact ⟨h1 x, h2 x⟩
      · intro h; exact ⟨fun x hx => (h x).mp hx, fun x hx => (h x).mpr hx⟩)

/-- The deduplicated size-plus-containment check the duplicate detector
runs is exactly normalized-set equality. -/
theorem actorsEqualSets_dedup_iff (xs ys : List String) :
    actorsEqualSets (jsDedup (xs.map normName)) (jsDedup (ys.map normName)) = true ↔
      NormNameSetEq xs ys := by
  rw [actorsEqualSets_iff_of_nodup _ _ (nodup_jsDedup _) (nodup_jsDedup _)]
  unfold NormNameSetEq
  constructor
  · intro h x; rw [← mem_jsDedup (xs.map normName), ← mem_jsDedup (ys.map normName)]
    exact h x
  · intro h x; rw [mem_jsDedup, mem_jsDedup]; exact h x

theorem NormNameSetEq_comm (ns₁ ns₂ : List String) :
    NormNameSetEq ns₁ ns₂ ↔ NormNameSetEq ns₂ ns₁ := by
  unfold NormNameSetEq
  exact ⟨fun h x => (h x).symm, fun h x => (h x).symm⟩

/-- Characterization of `CreateAbl.#ensureNoDuplicate`'s duplicate test. -/
theorem isDuplicate_iff (db : DB) (input : MovieInput) :
    isDuplicate db input = true ↔
      ∃ m ∈ db.movies,
        m.title = jsTrim input.title ∧ m.year = input.year ∧
        m.format = jsTrim input.format ∧
        NormNameSetEq (movieActorNames db m) input.actors := by
  have hnames : ∀ m : Movie, ((actorsOf db m.id).map (fun a => normName a.name)) =
      (movieActorNames db m).map normName := by
    intro m; rw [movieActorNames, List.map_map]; rfl
  simp only [isDuplicate, listByTitleYearAndFormat, List.any_eq_true, List.mem_map,
    List.mem_filter, Bool.and_eq_true, beq_iff_eq]
  constructor
  · rintro ⟨x, ⟨m, ⟨hmem, ⟨h1, h2⟩, h3⟩, rfl⟩, hset⟩
    refine ⟨m, hmem, h1, h2, h3, ?_⟩
    rw [NormNameSetEq_comm, ← actorsEqualSets_dedup_iff, ← hnames m]
    exact hset
  · rintro ⟨m, hmem, h1, h2, h3, hset⟩
    refine ⟨(m, actorsOf db m.id), ⟨m, ⟨hmem, ⟨h1, h2⟩, h3⟩, rfl⟩, ?_⟩
    rw [NormNameSetEq_comm, ← actorsEqualSets_dedup_iff, ← hnames m] at hset
    exact hset

theorem updateActorList_movies (db : DB) (mid : Nat) (actors : List String) :
    (updateActorList db mid actors).movies = db.movies := by
  unfold updateActorList resolveActorsByNames
  by_cases h : actors.isEmpty <;> simp [h]

/-- **C1.** Single create raises the duplicate error exactly when some
already-persisted movie matches the (trimmed) title, the year and the
(trimmed) format and carries the same normalized actor-name set; on the
error no movie row is written, and otherwise the create succeeds and
appends exactly the new movie row. -/
theorem create_duplicate_iff (db : DB) (input : MovieInput) :
    ((createAblRun db input).2 = CreateOutcome.alreadyExists ↔
      ∃ m ∈ db.movies,
        m.title = jsTrim input.title ∧ m.year = input.year ∧
        m.format = jsTrim input.format ∧
        NormNameSetEq (movieActorNames db m) input.actors)
    ∧ ((createAblRun db input).2 = CreateOutcome.alreadyExists →
        (createAblRun db input).1 = db)
    ∧ ((createAblRun db input).2 ≠ CreateOutcome.alreadyExists →
        (createAblRun db input).2 = CreateOutcome.created db.nextMovieId ∧
        (createAblRun db input).1.movies = db.movies ++
          [⟨db.nextMovieId, input.title, normalizeField input.title,
            input.year, input.format⟩]) := by
  unfold createAblRun
  by_cases hdup : isDuplicate db input = true
  · rw [if_pos hdup]
    refine ⟨?_, fun _ => rfl, fun h => absurd rfl h⟩
    simpa using (isDuplicate_iff db input).mp hdup
  · rw [if_neg hdup]
    refine ⟨?_, by simp, fun _ => ?_⟩
    · simp only [ne_eq, reduceCtorEq, false_iff]
      intro hex
      exact hdup ((isDuplicate_iff db input).mpr hex)
    · refine ⟨rfl, ?_⟩
      show (daoCreate db input).1.movies = _
      unfold daoCreate
      rw [updateActorList_movies]

/-- Witness for C1 at a concrete database: the spec's §8 example pair
(`А-тест`, 2011, `Blu-Ray`) with actor lists differing in order, case
and whitespace is flagged as a duplicate and the state is unchanged. -/
def c1DB : DB :=
  ⟨[⟨1, "А-тест", "а-тест", 2011, "Blu-Ray"⟩],
    [⟨1, "Іван Петренко", "іван петренко"⟩, ⟨2, "Marta", "marta"⟩],
    [(1, 1), (1, 2)], 2, 3⟩

def c1Input : MovieInput := ⟨"А-тест", 2011, "Blu-Ray", [" marta ", "іван петренко"]⟩

theorem create_duplicate_iff_witness :
    (createAblRun c1DB c1Input).2 = CreateOutcome.alreadyExists ∧
    (createAblRun c1DB c1Input).1 = c1DB := by
  have h := create_duplicate_iff c1DB c1Input
  have hdup : (createAblRun c1DB c1Input).2 = CreateOutcome.alreadyExists := by
    refine h.1.mpr ⟨⟨1, "А-тест", "а-тест", 2011, "Blu-Ray"⟩, by decide, by decide,
      by decide, by decide, ?_⟩
    decide
  exact ⟨hdup, h.2.1 hdup⟩

/-! ### The bulk filter is a per-candidate test -/

theorem mem_loadExistingByKey (db : DB) (keys : List String)
    (p : String × List (Movie × List Actor)) (hp : p ∈ loadExistingByKey db keys) :
    p.2 = loadExistingForKey db p.1 ∧ (loadExistingForKey db p.1).isEmpty = false := by
  unfold loadExistingByKey at hp
  rw [List.mem_filterMap] at hp
  obtain ⟨k, _, hk⟩ := hp
  by_cases he : (loadExistingForKey db k).isEmpty
  · simp [he] at hk
  · simp only [he, if_neg, Bool.false_eq_true, ite_false, Option.some.injEq] at hk
    subst hk
    exact ⟨rfl, Bool.not_eq_true _ ▸ (by simpa using he)⟩

theorem find?_loadExistingByKey (db : DB) (keys : List String) (k : String)
    (hk : k ∈ keys) :
    (loadExistingByKey db keys).find? (fun p => p.1 == k) =
      if (loadExistingForKey db k).isEmpty then none
      else some (k, loadExistingForKey db k) := by
  induction keys with
  | nil => cases hk
  | cons k' rest ih =>
    by_cases he' : (loadExistingForKey db k').isEmpty
    · have hstep : loadExistingByKey db (k' :: rest) = loadExistingByKey db rest := by
        unfold loadExistingByKey
        rw [List.filterMap_cons]
        simp [he']
      rw [hstep]
      by_cases hkk : k' = k
      · subst hkk
        rw [if_pos he']
        apply List.find?_eq_none.mpr
        intro p hp
        have hmem := mem_loadExistingByKey db rest p hp
        simp only [beq_iff_eq]
        intro hpk
        rw [hpk] at hmem
        rw [hmem.2] at he'
        cases he'
      · have hk' : k ∈ rest := by
          rcases List.mem_cons.mp hk with rfl | h
          · exact absurd rfl hkk
          · exact h
        exact ih hk'
    · have hstep : loadExistingByKey db (k' :: rest) =
          (k', loadExistingForKey db k') :: loadExistingByKey db rest := by
        unfold loadExistingByKey
        rw [List.filterMap_cons]
        simp [he']
      rw [hstep]
      by_cases hkk : k' = k
      · subst hkk
        rw [List.find?_cons_of_pos _ (by simp), if_neg he']
      · rw [List.find?_cons_of_neg _ (by simp [hkk])]
        have hk' : k ∈ rest := by
          rcases List.mem_cons.mp hk with rfl | h
          · exact absurd rfl hkk
          · exact h
        exact ih hk'

/-- The grouped, one-lookup-per-key bulk filter decides each candidate
exactly by its own lookup: the outcome for a candidate depends only on
the already-persisted rows, never on the rest of the batch. -/
theorem filterDuplicates_eq_filter (db : DB) (movieList : List MovieInput) :
    filterDuplicates db movieList =
      movieList.filter (fun m => !(bulkIsDuplicate db m)) := by
  simp only [filterDuplicates]
  apply List.filter_congr
  intro m hm
  have hk : buildKey m ∈ inputKeys movieList :=
    (mem_jsDedup _ _).mpr (List.mem_map_of_mem _ hm)
  rw [find?_loadExistingByKey db _ _ hk]
  by_cases he : (loadExistingForKey db (buildKey m)).isEmpty
  · rw [if_pos he]
    have hnil : loadExistingForKey db (buildKey m) = [] := by
      simpa using he
    simp [bulkIsDuplicate, hnil, hasDuplicateActors]
  · rw [if_neg he]
    simp [bulkIsDuplicate]

/-! ### Count bookkeeping of `createMany` -/

theorem resolveActors_movies (db : DB) (ns : List String) :
    (resolveActorsByNames db ns).1.movies = db.movies := by
  simp [resolveActorsByNames]

theorem createMany_itemList_length (db : DB) (l : List MovieInput) :
    (createManyOp db l).2.itemList.length = (filterDuplicates db l).length := by
  simp only [createManyOp]
  split
  · next h => simp [List.isEmpty_iff.mp h]
  · simp

theorem createMany_skipped (db : DB) (l : List MovieInput) :
    (createManyOp db l).2.skipped = l.length - (filterDuplicates db l).length := by
  simp only [createManyOp]
  split
  · next h => simp [List.isEmpty_iff.mp h]
  · simp

theorem createMany_movies_length (db : DB) (l : List MovieInput) :
    (createManyOp db l).1.movies.length =
      db.movies.length + (filterDuplicates db l).length := by
  simp only [createManyOp]
  split
  · next h => simp [List.isEmpty_iff.mp h]
  · simp [resolveActors_movies]

/-- **C10.** The bulk duplicate filter compares each candidate only
against already-persisted movies, never against the rest of the batch:
the filter is candidate-pointwise, and a batch of two identical records
matching no existing movie keeps and inserts both rows with a skipped
count of zero. -/
theorem createMany_ignores_batch_duplicates (db : DB) (movieList : List MovieInput)
    (c : MovieInput) (hnew : bulkIsDuplicate db c = false) :
    filterDuplicates db movieList =
      movieList.filter (fun m => !(bulkIsDuplicate db m)) ∧
    filterDuplicates db [c, c] = [c, c] ∧
    (createManyOp db [c, c]).2.skipped = 0 ∧
    (createManyOp db [c, c]).2.itemList.length = 2 ∧
    (createManyOp db [c, c]).1.movies.length = db.movies.length + 2 := by
  have hpair : filterDuplicates db [c, c] = [c, c] := by
    rw [filterDuplicates_eq_filter]
    simp [hnew]
  refine ⟨filterDuplicates_eq_filter db movieList, hpair, ?_, ?_, ?_⟩
  · rw [createMany_skipped, hpair]; simp
  · rw [createMany_itemList_length, hpair]; rfl
  · rw [createMany_movies_length, hpair]; rfl

/-- Witness for C10: two identical fresh records in one batch are both
created. -/
theorem createMany_ignores_batch_duplicates_witness :
    filterDuplicates emptyDB [⟨"Heat", 1995, "DVD", ["Al Pacino"]⟩,
        ⟨"Heat", 1995, "DVD", ["Al Pacino"]⟩] =
      [⟨"Heat", 1995, "DVD", ["Al Pacino"]⟩, ⟨"Heat", 1995, "DVD", ["Al Pacino"]⟩] ∧
    (createManyOp emptyDB [⟨"Heat", 1995, "DVD", ["Al Pacino"]⟩,
        ⟨"Heat", 1995, "DVD", ["Al Pacino"]⟩]).2.skipped = 0 ∧
    (createManyOp emptyDB [⟨"Heat", 1995, "DVD", ["Al Pacino"]⟩,
        ⟨"Heat", 1995, "DVD", ["Al Pacino"]⟩]).1.movies.length = 2 := by
  have h := createMany_ignores_batch_duplicates emptyDB []
    ⟨"Heat", 1995, "DVD", ["Al Pacino"]⟩ (by decide)
  exact ⟨h.2.1, h.2.2.1, h.2.2.2.2⟩

/-! ### C2: the `title|year|format` key round-trip loses titles that
contain the separator -/

/-- A store holding a movie whose title contains the `|` separator. -/
def c2DB : DB :=
  ⟨[⟨1, "x|1", "x|1", 2000, "DVD"⟩], [⟨1, "a", "a"⟩], [(1, 1)], 2, 2⟩

/-- An exact duplicate (same title, year, format, actor set) of the
stored movie. -/
def c2Candidate : MovieInput := ⟨"x|1", 2000, "DVD", ["a"]⟩

/-- **C2.** The single-create rule classifies the candidate as a
duplicate of the stored movie, but the bulk filter's key
`"x|1|2000|DVD"` splits back into title `"x"`, year `1`, format
`"2000"`, so its lookup finds nothing: the candidate is retained, both
`createMany` and the skipped count miss the duplicate, and a duplicate
row is inserted. -/
theorem filterDuplicates_pipe_title_bug :
    isDuplicate c2DB c2Candidate = true ∧
    jsSplitOn (buildKey c2Candidate) '|' = ["x", "1", "2000", "DVD"] ∧
    filterDuplicates c2DB [c2Candidate] = [c2Candidate] ∧
    (createManyOp c2DB [c2Candidate]).2.skipped = 0 ∧
    (createManyOp c2DB [c2Candidate]).1.movies.length = 2 := by
  decide

/-! ### C5: count consistency of `createMany` / `import` -/

/-- The spec's well-formed one-record import file. -/
def c5File : String :=
  "Title: Casablanca\nRelease Year: 1942\nFormat: DVD\nStars: Humphrey Bogart, Ingrid Bergman\n"

/-- **C5.** The reported counts are consistent for every call: the
skipped (duplicates) count is the number of records the filter removed,
the imported count is the number of rows actually created; and the
well-formed one-record file of a new movie imports exactly one movie
whose actor set is the comma-split, trimmed Stars value. -/
theorem createMany_import_counts (db : DB) (movieList : List MovieInput) :
    ((createManyOp db movieList).2.skipped =
        movieList.length - (filterDuplicates db movieList).length) ∧
    ((createManyOp db movieList).2.itemList.length =
        (filterDuplicates db movieList).length) ∧
    ((createManyOp db movieList).1.movies.length =
        db.movies.length + (filterDuplicates db movieList).length) ∧
    ((importRun emptyDB c5File).2 =
        Except.ok ⟨[⟨1, "Casablanca", 1942, "DVD"⟩], 1, 0, 1⟩) ∧
    ((importRun emptyDB c5File).1.movies.map Movie.title = ["Casablanca"]) ∧
    (movieActorNames (importRun emptyDB c5File).1 ⟨1, "Casablanca", "casablanca", 1942, "DVD"⟩ =
        splitStars "Humphrey Bogart, Ingrid Bergman") ∧
    (splitStars "Humphrey Bogart, Ingrid Bergman" =
        ["Humphrey Bogart", "Ingrid Bergman"]) := by
  refine ⟨createMany_skipped db movieList, createMany_itemList_length db movieList,
    createMany_movies_length db movieList, by decide, by decide, by decide, by decide⟩

/-- Witness for C5 at a concrete batch: one fresh record plus one exact
duplicate of a persisted movie yields one created row and `skipped = 1`. -/
theorem createMany_import_counts_witness :
    (createManyOp c1DB [⟨"А-тест", 2011, "Blu-Ray", ["Іван Петренко", "Marta"]⟩,
        ⟨"Heat", 1995, "DVD", ["Al Pacino"]⟩]).2.skipped = 1 ∧
    (createManyOp c1DB [⟨"А-тест", 2011, "Blu-Ray", ["Іван Петренко", "Marta"]⟩,
        ⟨"Heat", 1995, "DVD", ["Al Pacino"]⟩]).2.itemList.length = 1 := by
  have h := createMany_import_counts c1DB
    [⟨"А-тест", 2011, "Blu-Ray", ["Іван Петренко", "Marta"]⟩,
      ⟨"Heat", 1995, "DVD", ["Al Pacino"]⟩]
  refine ⟨?_, ?_⟩
  · rw [h.1]; decide
  · rw [h.2.1]; decide

/-! ### C4: structural import-file errors -/

/-- **C4.** A block with a line count other than four fails as
`InvalidFileContent`; a four-line block lacking one of the
case-insensitive field prefixes fails as the distinct
`MoviesMissingRequiredFields` (carrying the missing fields); and a file
whose parse fails leaves the store untouched — parsing completes before
any storage write. -/
theorem import_structural_errors (db : DB) :
    (∀ block : List String, block.length ≠ 4 →
      parseMovieBlock block = .error (.invalidFileContent
        "Movie block must contain exactly [Title, Release Year, Format, Stars] fields")) ∧
    (∀ block : List String, block.length = 4 →
      (∃ f ∈ MOVIE_FILE_TEXT_FIELDS, findFieldLine block f = none) →
      ∃ ms, parseMovieBlock block = .error (.moviesMissingRequiredFields ms) ∧
        ms ≠ [] ∧
        ms = MOVIE_FILE_TEXT_FIELDS.filter (fun f => (findFieldLine block f).isNone)) ∧
    (∀ d ms, ImportError.invalidFileContent d ≠ .moviesMissingRequiredFields ms) ∧
    (∀ content e, parseMoviesFile content = .error e →
      importRun db content = (db, .error e)) := by
  refine ⟨?_, ?_, ?_, ?_⟩
  · intro block h
    rw [parseMovieBlock, if_pos]
    exact h
  · intro block hlen ⟨f, hf, hnone⟩
    refine ⟨MOVIE_FILE_TEXT_FIELDS.filter (fun f => (findFieldLine block f).isNone),
      ?_, ?_, rfl⟩
    · rw [parseMovieBlock, if_neg (by simp [hlen, MOVIE_FILE_TEXT_FIELDS]), if_pos]
      intro hempty
      have : f ∈ MOVIE_FILE_TEXT_FIELDS.filter (fun f => (findFieldLine block f).isNone) :=
        List.mem_filter.mpr ⟨hf, by simp [hnone]⟩
      rw [hempty] at this
      cases this
    · intro hempty
      have : f ∈ MOVIE_FILE_TEXT_FIELDS.filter (fun f => (findFieldLine block f).isNone) :=
        List.mem_filter.mpr ⟨hf, by simp [hnone]⟩
      rw [hempty] at this
      cases this
  · intro d ms h
    cases h
  · intro content e h
    rw [importRun, h]

/-- Witness for C4: a three-line block, a four-line block missing
`Stars`, and a file containing the latter block on a concrete store. -/
theorem import_structural_errors_witness :
    parseMovieBlock ["Title: A", "Release Year: 2000", "Format: DVD"] =
      .error (.invalidFileContent
        "Movie block must contain exactly [Title, Release Year, Format, Stars] fields") ∧
    (∃ ms, parseMovieBlock ["Title: A", "Release Year: 2000", "Format: DVD", "Genre: X"] =
      .error (.moviesMissingRequiredFields ms) ∧ ms ≠ [] ∧
      ms = MOVIE_FILE_TEXT_FIELDS.filter
        (fun f => (findFieldLine ["Title: A", "Release Year: 2000", "Format: DVD", "Genre: X"] f).isNone)) ∧
    importRun c1DB "Title: A\nRelease Year: 2000\nFormat: DVD\nGenre: X" =
      (c1DB, .error (.moviesMissingRequiredFields ["Stars"])) := by
  have h := import_structural_errors c1DB
  refine ⟨h.1 _ (by decide), h.2.1 _ (by decide) ⟨"Stars", by decide, by decide⟩, ?_⟩
  exact h.2.2.2 _ _ (by decide)

/-! ### C3: phases of the `createMany` storage trace -/

/-- **C3 (amended).** In the `createMany` trace one transaction wraps
the whole call: the duplicate-filter queries run first — one per
distinct key, each *without* the transaction handle (outside the
transaction) — and the insert phase that follows them carries the
transaction on every insert and bulk-inserts exactly the surviving
records' movies; when nothing survives, no insert is issued.  (The
filter queries do, however, run after `BEGIN`: the transaction is opened
before the filter phase, refuting the claim's "(before)".) -/
theorem insertPhase_cases (A L : List DbEvent) (T : List String) (e : DbEvent)
    (hA : ∀ x ∈ A, x = DbEvent.actorInsert true)
    (hL : ∀ x ∈ L, x = DbEvent.linkInsert true)
    (he : e ∈ [DbEvent.actorSelect true] ++ A ++ [DbEvent.movieInsert T true] ++ L ++
      [DbEvent.countQuery true]) :
    e = DbEvent.actorSelect true ∨ e = DbEvent.actorInsert true ∨
    e = DbEvent.movieInsert T true ∨ e = DbEvent.linkInsert true ∨
    e = DbEvent.countQuery true := by
  simp only [List.mem_append, List.mem_cons, List.not_mem_nil, or_false] at he
  rcases he with (((he | he) | he) | he) | he
  · exact Or.inl he
  · exact Or.inr (Or.inl (hA e he))
  · exact Or.inr (Or.inr (Or.inl he))
  · exact Or.inr (Or.inr (Or.inr (Or.inl (hL e he))))
  · exact Or.inr (Or.inr (Or.inr (Or.inr he)))

theorem createMany_trace_phases (db : DB) (movieList : List MovieInput) :
    ∃ insertPhase : List DbEvent,
      createManyTrace db movieList =
        DbEvent.txBegin ::
          ((inputKeys movieList).map (fun k => DbEvent.filterQuery k false) ++
            insertPhase ++ [DbEvent.txCommit]) ∧
      (∀ e ∈ (inputKeys movieList).map (fun k => DbEvent.filterQuery k false),
        ∃ k, e = DbEvent.filterQuery k false) ∧
      (∀ e ∈ insertPhase, ∀ k b, e ≠ DbEvent.filterQuery k b) ∧
      (∀ e ∈ insertPhase, e.isInsert = true →
        e = DbEvent.actorInsert true ∨
        e = DbEvent.movieInsert
          ((filterDuplicates db movieList).map (fun m => m.title)) true ∨
        e = DbEvent.linkInsert true) ∧
      ((filterDuplicates db movieList).isEmpty = true →
        ∀ e ∈ insertPhase, e.isInsert = false) := by
  have hmapq : ∀ e ∈ (inputKeys movieList).map (fun k => DbEvent.filterQuery k false),
      ∃ k, e = DbEvent.filterQuery k false := by
    intro e he
    rw [List.mem_map] at he
    obtain ⟨k, _, rfl⟩ := he
    exact ⟨k, rfl⟩
  simp only [createManyTrace]
  by_cases h : (filterDuplicates db movieList).isEmpty
  · rw [if_pos h]
    refine ⟨[DbEvent.countQuery true], rfl, hmapq, ?_, ?_, ?_⟩
    · intro e he
      rw [List.mem_singleton] at he
      subst he
      intro k b hc
      cases hc
    · intro e he
      rw [List.mem_singleton] at he
      subst he
      intro hc
      cases hc
    · intro _ e he
      rw [List.mem_singleton] at he
      subst he
      rfl
  · rw [if_neg h]
    have hAsub : ∀ x ∈ (if (resolveActorsByNames db
          ((filterDuplicates db movieList).flatMap fun m => m.actors)).1.actors.length =
            db.actors.length then ([] : List DbEvent) else [DbEvent.actorInsert true]),
        x = DbEvent.actorInsert true := by
      intro x hx
      split at hx
      · cases hx
      · rw [List.mem_singleton] at hx; exact hx
    have hLsub : ∀ x ∈ (if (createManyOp db movieList).1.links.length =
          db.links.length then ([] : List DbEvent) else [DbEvent.linkInsert true]),
        x = DbEvent.linkInsert true := by
      intro x hx
      split at hx
      · cases hx
      · rw [List.mem_singleton] at hx; exact hx
    refine ⟨_, rfl, hmapq, ?_, ?_, fun h' => absurd h' h⟩
    · intro e he
      rcases insertPhase_cases _ _ _ e hAsub hLsub he with rfl | rfl | rfl | rfl | rfl
        <;> intro k b hc <;> cases hc
    · intro e he
      rcases insertPhase_cases _ _ _ e hAsub hLsub he with rfl | rfl | rfl | rfl | rfl
      · intro hc; cases hc
      · intro _; exact Or.inl rfl
      · intro _; exact Or.inr (Or.inl rfl)
      · intro _; exact Or.inr (Or.inr rfl)
      · intro hc; cases hc

/-- Witness for C3 at a concrete call: one fresh record on the empty
store. -/
theorem createMany_trace_phases_witness :
    ∃ insertPhase : List DbEvent,
      createManyTrace emptyDB [⟨"A", 2000, "DVD", ["B"]⟩] =
        DbEvent.txBegin ::
          ((inputKeys [⟨"A", 2000, "DVD", ["B"]⟩]).map
              (fun k => DbEvent.filterQuery k false) ++
            insertPhase ++ [DbEvent.txCommit]) ∧
      (∀ e ∈ (inputKeys [⟨"A", 2000, "DVD", ["B"]⟩]).map
          (fun k => DbEvent.filterQuery k false),
        ∃ k, e = DbEvent.filterQuery k false) ∧
      (∀ e ∈ insertPhase, ∀ k b, e ≠ DbEvent.filterQuery k b) ∧
      (∀ e ∈ insertPhase, e.isInsert = true →
        e = DbEvent.actorInsert true ∨
        e = DbEvent.movieInsert
          ((filterDuplicates emptyDB [⟨"A", 2000, "DVD", ["B"]⟩]).map
            (fun m => m.title)) true ∨
        e = DbEvent.linkInsert true) ∧
      ((filterDuplicates emptyDB [⟨"A", 2000, "DVD", ["B"]⟩]).isEmpty = true →
        ∀ e ∈ insertPhase, e.isInsert = false) :=
  createMany_trace_phases emptyDB [⟨"A", 2000, "DVD", ["B"]⟩]

/-- **C3 counterexample.** At a concrete call the trace's first event is
`BEGIN`, and a duplicate-filter query occurs after it: the filter phase
does not run before the transaction is opened (it runs inside the
callback, merely without the transaction handle). -/
theorem createMany_filter_after_txBegin :
    DbEvent.filterQuery "A|2000|DVD" false ∈
      createManyTrace emptyDB [⟨"A", 2000, "DVD", ["B"]⟩] ∧
    (createManyTrace emptyDB [⟨"A", 2000, "DVD", ["B"]⟩]).head? =
      some DbEvent.txBegin ∧
    List.indexOf DbEvent.txBegin (createManyTrace emptyDB [⟨"A", 2000, "DVD", ["B"]⟩]) <
      List.indexOf (DbEvent.filterQuery "A|2000|DVD" false)
        (createManyTrace emptyDB [⟨"A", 2000, "DVD", ["B"]⟩]) := by
  decide

/-! ### C9: `total` is the full filtered count -/

/-- **C9.** The `total` a list call reports is the number of movies
matching the supplied filters, whatever the pagination and sort used:
two calls differing only in `limit`, `offset`, `sort`, `order` report
the same total. -/
theorem list_total_full_count (db : DB) (o o' : ListOptions)
    (ht : o'.title = o.title) (ha : o'.actor = o.actor) (hs : o'.search = o.search) :
    (daoList db o).2 = (matchingMovies db o.title o.actor o.search).length ∧
    (daoList db o').2 = (daoList db o).2 := by
  refine ⟨rfl, ?_⟩
  show (matchingMovies db o'.title o'.actor o'.search).length = _
  rw [ht, ha, hs]
  rfl

/-- Witness for C9: on a one-movie store, three calls with different
pagination and sort agree on the total. -/
theorem list_total_full_count_witness :
    (daoList c1DB ⟨1, 1, "year", "DESC", none, none, none⟩).2 =
      (daoList c1DB ⟨20, 0, "id", "ASC", none, none, none⟩).2 ∧
    (daoList c1DB ⟨2, 5, "title", "ASC", none, none, none⟩).2 =
      (daoList c1DB ⟨20, 0, "id", "ASC", none, none, none⟩).2 ∧
    (daoList c1DB ⟨20, 0, "id", "ASC", none, none, none⟩).2 = 1 := by
  refine ⟨(list_total_full_count c1DB ⟨20, 0, "id", "ASC", none, none, none⟩
      ⟨1, 1, "year", "DESC", none, none, none⟩ rfl rfl rfl).2,
    (list_total_full_count c1DB ⟨20, 0, "id", "ASC", none, none, none⟩
      ⟨2, 5, "title", "ASC", none, none, none⟩ rfl rfl rfl).2, ?_⟩
  decide

/-! ### C8: shape and semantics of the combined filters -/

/-- **C8.** With both `title` and `search` given, the where-clause is a
single OR group joining the title substring condition with `search`'s
movie-ids-by-actor condition; the `actor` filter is an independent
required join ANDed in; and all three filters compare the trimmed,
lowercased term against the derived `searchTitle` / `searchName`
columns as substrings. -/
theorem list_filter_semantics (db : DB) (t s a : String) (m : Movie)
    (ht : t ≠ "") (hs : s ≠ "") (ha : a ≠ "") :
    (buildMovieWhere db (some t) (some s) =
      MovieCond.orGroup ([SimpleCond.searchTitleLike (jsToLower (jsTrim t))] ++
        (if (findMovieIdsByActor db s).isEmpty then []
         else [SimpleCond.idIn (findMovieIdsByActor db s)]))) ∧
    (buildActorInclude (some a) = ⟨true, some (jsToLower (jsTrim a))⟩) ∧
    (∀ x : Nat, x ∈ findMovieIdsByActor db s ↔
      ∃ mv ∈ db.movies, mv.id = x ∧
        ∃ ac ∈ actorsOf db mv.id,
          strContains ac.searchName (jsToLower (jsTrim s)) = true) ∧
    (m ∈ matchingMovies db (some t) (some a) (some s) ↔
      m ∈ db.movies ∧
      (strContains m.searchTitle (jsToLower (jsTrim t)) = true ∨
        m.id ∈ findMovieIdsByActor db s) ∧
      ∃ ac ∈ actorsOf db m.id,
        strContains ac.searchName (jsToLower (jsTrim a)) = true) := by
  have ht' : (t == "") = false := beq_eq_false_iff_ne.mpr ht
  have hs' : (s == "") = false := beq_eq_false_iff_ne.mpr hs
  have ha' : (a == "") = false := beq_eq_false_iff_ne.mpr ha
  have hwh : buildMovieWhere db (some t) (some s) =
      MovieCond.orGroup ([SimpleCond.searchTitleLike (jsToLower (jsTrim t))] ++
        (if (findMovieIdsByActor db s).isEmpty then []
         else [SimpleCond.idIn (findMovieIdsByActor db s)])) := by
    simp only [buildMovieWhere, optTruthy, ht', hs', Bool.not_false, Bool.and_self,
      Bool.true_and, Bool.and_false, Option.getD_some, if_true, Bool.not_true]
    split
    · next hff => simp at hff
    · split <;> simp
  have hincl : buildActorInclude (some a) =
      ActorInclude.mk true (some (jsToLower (jsTrim a))) := by
    simp [buildActorInclude, optTruthy, ha']
  have hids : ∀ x : Nat, x ∈ findMovieIdsByActor db s ↔
      ∃ mv ∈ db.movies, mv.id = x ∧
        ∃ ac ∈ actorsOf db mv.id,
          strContains ac.searchName (jsToLower (jsTrim s)) = true := by
    intro x
    simp only [findMovieIdsByActor, List.mem_dedup, List.mem_map, List.mem_filter,
      List.any_eq_true]
    constructor
    · rintro ⟨mv, ⟨hmv, ac, hac, hc⟩, rfl⟩
      exact ⟨mv, hmv, rfl, ac, hac, hc⟩
    · rintro ⟨mv, hmv, rfl, ac, hac, hc⟩
      exact ⟨mv, ⟨hmv, ac, hac, hc⟩, rfl⟩
  refine ⟨hwh, hincl, hids, ?_⟩
  rw [matchingMovies]
  rw [List.mem_filter, hwh, hincl]
  simp only [Bool.and_eq_true]
  constructor
  · rintro ⟨hmem, hcond, hinc⟩
    refine ⟨hmem, ?_, ?_⟩
    · revert hcond
      split
      · next hempty =>
        simp only [evalCond, List.append_nil, List.any_cons, List.any_nil,
          Bool.or_false, evalSimple]
        intro hc
        exact Or.inl hc
      · simp only [evalCond, List.any_eq_true, List.mem_append, List.mem_singleton]
        rintro ⟨c, (rfl | rfl), hc⟩
        · exact Or.inl (by simpa [evalSimple] using hc)
        · exact Or.inr (by simpa [evalSimple, List.elem_iff] using hc)
    · simpa [evalInclude, List.any_eq_true] using hinc
  · rintro ⟨hmem, hcond, ac, hac, hc⟩
    refine ⟨hmem, ?_, ?_⟩
    · split
      · next hempty =>
        simp only [evalCond, List.append_nil, List.any_cons, List.any_nil,
          Bool.or_false, evalSimple]
        rcases hcond with hc' | hc'
        · exact hc'
        · rw [List.isEmpty_iff.mp hempty] at hc'
          cases hc'
      · simp only [evalCond, List.any_eq_true, List.mem_append, List.mem_singleton]
        rcases hcond with hc' | hc'
        · exact ⟨_, Or.inl rfl, by simpa [evalSimple] using hc'⟩
        · exact ⟨_, Or.inr rfl, by simpa [evalSimple, List.elem_iff] using hc'⟩
    · simpa [evalInclude, List.any_eq_true] using ⟨ac, hac, hc⟩

/-- Witness for C8 on the concrete one-movie store: the Cyrillic filters
`тест` / `іван` build the claimed OR group and required join, and the
stored movie passes all three case-insensitive filters. -/
theorem list_filter_semantics_witness :
    (buildMovieWhere c1DB (some "Тест") (some "Іван") =
      MovieCond.orGroup ([SimpleCond.searchTitleLike (jsToLower (jsTrim "Тест"))] ++
        (if (findMovieIdsByActor c1DB "Іван").isEmpty then []
         else [SimpleCond.idIn (findMovieIdsByActor c1DB "Іван")]))) ∧
    (buildActorInclude (some "Іван") = ⟨true, some (jsToLower (jsTrim "Іван"))⟩) ∧
    (⟨1, "А-тест", "а-тест", 2011, "Blu-Ray"⟩ : Movie) ∈
      matchingMovies c1DB (some "Тест") (some "Іван") (some "Іван") := by
  have h := list_filter_semantics c1DB "Тест" "Іван" "Іван"
    ⟨1, "А-тест", "а-тест", 2011, "Blu-Ray"⟩ (by decide) (by decide) (by decide)
  refine ⟨h.1, h.2.1, h.2.2.2.mpr ⟨by decide, ?_, ?_⟩⟩
  · exact Or.inl (by decide)
  · exact ⟨⟨1, "Іван Петренко", "іван петренко"⟩, by decide, by decide⟩

/-! ### C7: the `searchTitle` invariant -/

/-- Every stored movie's `searchTitle` is the lowercased title. -/
def SearchTitleInv (db : DB) : Prop :=
  ∀ m ∈ db.movies, m.searchTitle = normalizeField m.title

/-- States reachable through the movie-writing operations, from the
empty store.  Updates carry the validation layer's guarantee that a
supplied title is non-empty. -/
inductive Reachable : DB → Prop where
  | empty : Reachable emptyDB
  | create (db : DB) (input : MovieInput) :
      Reachable db → Reachable (createAblRun db input).1
  | update (db : DB) (dto : UpdateDto) :
      Reachable db → dto.title ≠ some "" → Reachable (daoUpdate db dto).1
  | delete (db : DB) (id : Nat) : Reachable db → Reachable (daoDelete db id).1
  | createMany (db : DB) (l : List MovieInput) :
      Reachable db → Reachable (createManyOp db l).1

theorem inv_createAblRun (db : DB) (input : MovieInput) (h : SearchTitleInv db) :
    SearchTitleInv (createAblRun db input).1 := by
  unfold createAblRun
  split
  · exact h
  · intro m hm
    rw [show (daoCreate db input).1.movies = db.movies ++
        [⟨db.nextMovieId, input.title, normalizeField input.title,
          input.year, input.format⟩] from by
      unfold daoCreate; rw [updateActorList_movies]] at hm
    rcases List.mem_append.mp hm with hm | hm
    · exact h m hm
    · rw [List.mem_singleton] at hm
      subst hm
      rfl

theorem inv_daoUpdate (db : DB) (dto : UpdateDto) (h : SearchTitleInv db)
    (htitle : dto.title ≠ some "") : SearchTitleInv (daoUpdate db dto).1 := by
  unfold daoUpdate
  split
  · exact h
  · intro m hm
    simp only at hm
    have hmv : (match dto.actors with
        | some acts => updateActorList db dto.id acts
        | none => db).movies = db.movies := by
      cases dto.actors with
      | none => rfl
      | some acts => exact updateActorList_movies db dto.id acts
    rw [hmv, List.mem_map] at hm
    obtain ⟨m0, hm0, rfl⟩ := hm
    split
    · unfold applyUpdateFields
      cases hdt : dto.title with
      | none => simpa using h m0 hm0
      | some t =>
        have htne : t ≠ "" := fun he => htitle (he ▸ hdt)
        simp [hdt, htne]
    · exact h m0 hm0

theorem inv_daoDelete (db : DB) (id : Nat) (h : SearchTitleInv db) :
    SearchTitleInv (daoDelete db id).1 := by
  intro m hm
  exact h m (List.mem_filter.mp hm).1

theorem inv_createManyOp (db : DB) (l : List MovieInput) (h : SearchTitleInv db) :
    SearchTitleInv (createManyOp db l).1 := by
  simp only [createManyOp]
  split
  · exact h
  · intro m hm
    simp only [resolveActors_movies] at hm
    rcases List.mem_append.mp hm with hm | hm
    · exact h m hm
    · rw [List.mem_map] at hm
      obtain ⟨p, _, rfl⟩ := hm
      rfl

/-- **C7.** Every movie-writing operation maintains the invariant that
the stored `searchTitle` equals the lowercased title (update re-derives
it whenever a truthy title is supplied), so no reachable movie row has
`searchTitle` different from the lowercasing of its title. -/
theorem searchTitle_invariant (db : DB) (h : Reachable db) :
    SearchTitleInv db ∧
    (∀ (m : Movie) (dto : UpdateDto) (t : String), dto.title = some t → t ≠ "" →
      (applyUpdateFields m dto).searchTitle =
        normalizeField (applyUpdateFields m dto).title) := by
  refine ⟨?_, ?_⟩
  · induction h with
    | empty => intro m hm; cases hm
    | create db input _ ih => exact inv_createAblRun db input ih
    | update db dto _ htitle ih => exact inv_daoUpdate db dto ih htitle
    | delete db id _ ih => exact inv_daoDelete db id ih
    | createMany db l _ ih => exact inv_createManyOp db l ih
  · intro m dto t hdt htne
    unfold applyUpdateFields
    simp [hdt, htne]

/-- Witness for C7: a create followed by a title update on the empty
store satisfies the invariant. -/
theorem searchTitle_invariant_witness :
    SearchTitleInv (daoUpdate (createAblRun emptyDB
      ⟨"А-Тест", 2011, "DVD", ["Marta"]⟩).1
        ⟨1, some "Інший Фільм", none, none, none⟩).1 :=
  (searchTitle_invariant _
    (Reachable.update _ _
      (Reachable.create emptyDB ⟨"А-Тест", 2011, "DVD", ["Marta"]⟩ Reachable.empty)
      (by decide))).1

/-! ### C6: the in-memory title sort -/

theorem collatorLe_total (x y : String) : collatorLe x y || collatorLe y x := by
  rcases le_total (collatorKey x) (collatorKey y) with h | h <;>
    simp [collatorLe, h]

theorem collatorLe_trans (x y z : String) (h1 : collatorLe x y = true)
    (h2 : collatorLe y z = true) : collatorLe x z = true := by
  simp only [collatorLe, decide_eq_true_eq] at *
  exact le_trans h1 h2

theorem titleLe_total (order : String) (a b : Movie) :
    (titleLe order a b || titleLe order b a) = true := by
  unfold titleLe
  split <;> exact collatorLe_total _ _

theorem titleLe_trans (order : String) (a b c : Movie)
    (h1 : titleLe order a b = true) (h2 : titleLe order b c = true) :
    titleLe order a c = true := by
  unfold titleLe at h1 h2 ⊢
  by_cases h : order = "DESC"
  · rw [if_pos h] at h1 h2 ⊢
    exact collatorLe_trans _ _ _ h2 h1
  · rw [if_neg h] at h1 h2 ⊢
    exact collatorLe_trans _ _ _ h1 h2

theorem sortByTitle_pairwise (rows : List Movie) (order : String) :
    (sortByTitle rows order).Pairwise (fun x y => titleLe order x y = true) :=
  List.sorted_mergeSort
    (fun a b c => titleLe_trans order a b c)
    (fun a b => titleLe_total order a b) rows

/-- The upper-case Cyrillic test row of the spec's §8 example. -/
def c6Upper : Movie := ⟨2, "А-тест", "а-тест", 2011, "DVD"⟩

/-- The lower-case Cyrillic test row of the spec's §8 example. -/
def c6Lower : Movie := ⟨1, "а-тест", "а-тест", 2011, "DVD"⟩

/-- **C6.** With `sort = "title"`, `list` loads every row matching the
filters unpaginated, sorts in memory by the collator on trimmed titles,
and slices the sorted list from `offset` to `offset + limit`; the sort
is a permutation, its output is pairwise ordered, re-sorting a sorted
list changes nothing, the collator is configured as
`("und", variant, upper-first, numeric)`, `А-тест` sorts before
`а-тест` ascending, digit runs compare numerically, and accents are
significant. -/
theorem list_title_sort (db : DB) (o : ListOptions) (rows : List Movie)
    (horder : o.sort = "title") :
    ((daoList db o).1 =
      applyPagination (sortByTitle (matchingMovies db o.title o.actor o.search) o.order)
        o.limit o.offset) ∧
    (sortByTitle rows o.order).Perm rows ∧
    (sortByTitle rows o.order).Pairwise (fun x y => titleLe o.order x y = true) ∧
    sortByTitle (sortByTitle rows o.order) o.order = sortByTitle rows o.order ∧
    sortByTitleCollator = ⟨"und", "variant", "upper", true⟩ ∧
    sortByTitle [c6Lower, c6Upper] "ASC" = [c6Upper, c6Lower] ∧
    collatorKey (jsTrim " Movie 2 ") < collatorKey "Movie 10" ∧
    collatorKey "e" ≠ collatorKey "é" := by
  refine ⟨?_, List.mergeSort_perm rows _, sortByTitle_pairwise rows o.order,
    List.mergeSort_of_sorted (sortByTitle_pairwise rows o.order), rfl, ?_, ?_, ?_⟩
  · simp only [daoList, horder, if_true]
  · have h12 : titleLe "ASC" c6Lower c6Upper = false := by decide
    have h21 : titleLe "ASC" c6Upper c6Lower = true := by decide
    simp [sortByTitle, List.mergeSort, h12, h21]
  · decide
  · decide

/-- Witness for C6: a title-sorted list call on the concrete store. -/
theorem list_title_sort_witness :
    (daoList c1DB ⟨20, 0, "title", "ASC", none, none, none⟩).1 =
      applyPagination
        (sortByTitle (matchingMovies c1DB none none none) "ASC") 20 0 ∧
    sortByTitle [c6Lower, c6Upper] "ASC" = [c6Upper, c6Lower] := by
  have h := list_title_sort c1DB ⟨20, 0, "title", "ASC", none, none, none⟩ [] rfl
  exact ⟨h.1, h.2.2.2.2.2.1⟩

end ExpressMovies
